import Mathlib

/-!
# Verification of the `pghstore` serializer (`src/pghstore.py`)

A shallow embedding of the PostgreSQL hstore writer implemented by
`pghstore.dump` / `pghstore.dumps` (Python 2), together with the companion
reader that the specification describes (absent from the source, which is
writer-only).

Modelling conventions:
* A Python 2 byte string (`str`) and a `unicode` string are both modelled as
  `List Char`; the `.encode(encoding)` step applied to `unicode` objects is
  an abstract parameter `enc : List Char → List Char`, and `.decode(encoding)`
  an abstract parameter `dec`.
* Exceptions are modelled with explicit error values; `dump` returns the
  sequence of chunks handed to `file.write` together with the exception that
  terminated it, if any (writes performed before the exception remain, as in
  Python).
* `re.sub` on the pattern `[\\"]` with the replacement template `\\\1` is
  modelled faithfully to Python 2 `sre` semantics: the template references
  group 1 but the pattern has no groups, so the input is returned unchanged
  when it contains no `"` and no `\`, and the first match raises
  `sre_constants.error("invalid group reference")`.
-/

/-- A Python value as far as `dump` can observe it: a byte string (`str`),
a `unicode` string, `None`, an `int`, or any other non-text object
(identified by a tag standing for its identity). -/
inductive PyVal where
  | pstr (s : List Char)
  | puni (s : List Char)
  | pnone
  | pint (n : Int)
  | pobj (tag : List Char)
  deriving DecidableEq, Repr

/-- Python 2 `isinstance(x, basestring)`: true for `str` and `unicode`. -/
def PyVal.isBasestring : PyVal → Bool
  | .pstr _ => true
  | .puni _ => true
  | _ => false

/-- The exceptions `dump` and the coercion hooks can raise.  Constructors
carry the data interpolated into the Python message, so that, e.g., the
`TypeError` for a non-text value identifies the offending key. -/
inductive PyErr where
  /-- `TypeError("key %r is not a string" % key)` — the default `key_map`. -/
  | keyNotStr (key : PyVal)
  /-- `TypeError("value %r of key %r is not a string" % (value, key))`. -/
  | valueNotStr (value : PyVal) (key : List Char)
  /-- `TypeError("key_map must be callable")`. -/
  | keyMapNotCallable
  /-- `TypeError("value_map must be callable")`. -/
  | valueMapNotCallable
  /-- `TypeError("expected a mapping object, not " + type(obj).__name__)`. -/
  | notMapping (typeName : List Char)
  /-- `TypeError("file must be a wrtiable file object ...")`. -/
  | fileNotWritable
  /-- `TypeError` raised by calling a non-callable object, e.g.
  `"int object is not callable"`. -/
  | notCallableCalled (typeName : List Char)
  /-- `sre_constants.error("invalid group reference")` raised by
  `escape_re.sub` when its input contains a `"` or `\` byte. -/
  | reInvalidGroupReference
  /-- An arbitrary exception raised inside a caller-supplied hook. -/
  | hookErr (code : Nat)
  deriving DecidableEq, Repr

/-- A `key_map` / `value_map` argument: absent (`None`), a callable that
returns a text result or raises, or a non-callable object. -/
inductive Hook where
  | none
  | callable (f : PyVal → Except PyErr (List Char))
  | notCallable (typeName : List Char)

/-- The duck-typed `obj` argument of `dump`: which of the three probed
shapes it exposes (`iteritems()`, `items()`, `__iter__`) and what pairs each
would yield, plus `type(obj).__name__`. -/
structure Source where
  iteritems : Option (List (PyVal × PyVal))
  items : Option (List (PyVal × PyVal))
  iterable : Option (List (PyVal × PyVal))
  typeName : List Char
  deriving DecidableEq, Repr

/-- A plain list of pairs: no `iteritems`/`items` attribute, only
`__iter__`. -/
def pairList (ps : List (PyVal × PyVal)) : Source :=
  ⟨Option.none, Option.none, some ps, "list".data⟩

/-- A Python 2 dict over the given ordered pairs: exposes all three shapes,
with `iteritems()` preferred. -/
def dictSource (ps : List (PyVal × PyVal)) : Source :=
  ⟨some ps, some ps, some ps, "dict".data⟩

/-- Lines 140–147 of `pghstore.py`: probe `obj.iteritems`, then `obj.items`,
then `obj.__iter__`, and raise `TypeError` when none is available. -/
def getItems (obj : Source) : Except PyErr (List (PyVal × PyVal)) :=
  match obj.iteritems with
  | some ps => .ok ps
  | Option.none =>
    match obj.items with
    | some ps => .ok ps
    | Option.none =>
      match obj.iterable with
      | some ps => .ok ps
      | Option.none => .error (.notMapping obj.typeName)

/-- Lines 148–154 of `pghstore.py`: the `if key_map is None / elif not
callable(key_map) / elif not (value_map is None or callable(value_map))`
chain.  Returns the effective `key_map` function (the default one raises
`TypeError` naming the key).  Note the chain is `elif`, so the `value_map`
callability check runs only when `key_map` was supplied and callable. -/
def setupKeyMap (key_map value_map : Hook) : Except PyErr (PyVal → Except PyErr (List Char)) :=
  match key_map with
  | .none => .ok (fun k => .error (.keyNotStr k))
  | .notCallable _ => .error .keyMapNotCallable
  | .callable f =>
    match value_map with
    | .notCallable _ => .error .valueMapNotCallable
    | _ => .ok f

/-- Whether the string contains a character matched by
`escape_re = re.compile(r"[\\\x22]")`. -/
def hasEscChar (s : List Char) : Bool :=
  s.any (fun c => c = '"' ∨ c = '\\')

/-- The call `escape_re.sub(r"\\\1", s)` under Python 2 `sre` semantics.  The
template references group 1, but `escape_re` has no groups: with no match
the input is returned unchanged, and the first match raises
`sre_constants.error("invalid group reference")` (in `expand_template`,
`match.group(1)` raises `IndexError`, re-raised as `sre_constants.error`). -/
def escSub (s : List Char) : Except PyErr (List Char) :=
  if hasEscChar s then .error .reInvalidGroupReference else .ok s

/-- Lines 162–165 of `pghstore.py`: resolve a key to a byte string.  A
`str` passes through, a `unicode` is encoded with `encoding`, anything else
goes through the effective `key_map` (which may raise). -/
def resolveKey (km : PyVal → Except PyErr (List Char)) (enc : List Char → List Char) :
    PyVal → Except PyErr (List Char)
  | .pstr s => .ok s
  | .puni s => .ok (enc s)
  | k => km k

/-- Lines 166–172 of `pghstore.py`: resolve a value to a byte string.  A
`str` passes through, a `unicode` is encoded; otherwise if `value_map` is
absent a `TypeError` identifying the (already resolved) key is raised, and
if it is present it is called — calling a non-callable object raises a
`TypeError` of its own. -/
def resolveValue (vm : Hook) (enc : List Char → List Char) (key : List Char) :
    PyVal → Except PyErr (List Char)
  | .pstr s => .ok s
  | .puni s => .ok (enc s)
  | v =>
    match vm with
    | .none => .error (.valueNotStr v key)
    | .callable f => f v
    | .notCallable t => .error (.notCallableCalled t)

/-- The outcome of `dump`: the chunks handed to `file.write` in order, and
the exception that aborted it, if any. -/
structure DumpResult where
  written : List (List Char)
  error : Option PyErr
  deriving DecidableEq, Repr

/-- The chunk `'"=>"'` written between an escaped key and an escaped
value. -/
def arrowChunk : List Char := "\"=>\"".data

/-- Lines 160–181 of `pghstore.py`: the `for key, value in items` loop.
`first` tracks whether the leading `'"'` or `',"'` is written.  Each write
that happened before an exception is retained. -/
def dumpLoop (km : PyVal → Except PyErr (List Char)) (vm : Hook)
    (enc : List Char → List Char) (first : Bool) :
    List (PyVal × PyVal) → DumpResult
  | [] => ⟨[], Option.none⟩
  | (k, v) :: rest =>
    match resolveKey km enc k with
    | .error e => ⟨[], some e⟩
    | .ok ks =>
      match resolveValue vm enc ks v with
      | .error e => ⟨[], some e⟩
      | .ok vs =>
        let lead := if first then ['"'] else [',', '"']
        match escSub ks with
        | .error e => ⟨[lead], some e⟩
        | .ok ek =>
          match escSub vs with
          | .error e => ⟨[lead, ek, arrowChunk], some e⟩
          | .ok ev =>
            let r := dumpLoop km vm enc false rest
            ⟨lead :: ek :: arrowChunk :: ev :: ['"'] :: r.written, r.error⟩

/-- Lines 121–181 of `pghstore.py`: `dump(obj, file, key_map, value_map,
encoding)`.  `fileWritable` models whether `file.write` is callable. -/
def dump (obj : Source) (fileWritable : Bool) (key_map value_map : Hook)
    (enc : List Char → List Char) : DumpResult :=
  match getItems obj with
  | .error e => ⟨[], some e⟩
  | .ok items =>
    match setupKeyMap key_map value_map with
    | .error e => ⟨[], some e⟩
    | .ok km =>
      if fileWritable then dumpLoop km value_map enc true items
      else ⟨[], some .fileNotWritable⟩

/-- Python `StringIO.write`: append the chunk to the buffer. -/
def bufWrite (buf chunk : List Char) : List Char := buf ++ chunk

/-- Python `StringIO.getvalue()` after the given sequence of writes into a fresh
buffer. -/
def getvalue (writes : List (List Char)) : List Char :=
  writes.foldl bufWrite []

/-- Lines 113–118 of `pghstore.py`: `dumps` dumps into a fresh `StringIO`
buffer and returns `getvalue()`, decoded when `return_unicode` is set. -/
def dumps (obj : Source) (key_map value_map : Hook)
    (enc dec : List Char → List Char) (return_unicode : Bool) :
    Except PyErr (List Char) :=
  let r := dump obj true key_map value_map enc
  match r.error with
  | some e => .error e
  | Option.none =>
    if return_unicode then .ok (dec (getvalue r.written))
    else .ok (getvalue r.written)

/-- Decimal rendering of an integer, as Python's `str` produces for
`int`. -/
def intDecimal (n : Int) : List Char :=
  if n < 0 then '-' :: Nat.toDigits 10 n.natAbs else Nat.toDigits 10 n.natAbs

/-- The Python `str` builtin restricted to the modelled values: identity on
byte strings, decimal rendering of integers, `"None"` for `None`; for
`unicode` and other objects a simple stand-in (ASCII-representable
`unicode` passes through, other objects render their tag). -/
def pyStrBuiltin : PyVal → List Char
  | .pstr s => s
  | .puni s => s
  | .pnone => "None".data
  | .pint n => intDecimal n
  | .pobj tag => tag

/-- Passing `value_map=str`: the `str` builtin as a coercion hook. -/
def strHook : Hook := .callable (fun v => .ok (pyStrBuiltin v))

/-! ## The companion reader

Modelled from the spec: the decoder of §4.2 is not present in `src/`, which
is writer-only; the definitions below follow the spec's grammar — strict
escape policy and case-sensitive bare `NULL`, as the spec recommends — and
its failure modes, each carrying a character offset. -/

/-- Modelled from the spec: a `ParseError`-kind failure of the reader,
carrying the character offset at which it was detected. -/
inductive ParseErr where
  | unterminatedString (offset : Nat)
  | danglingEscape (offset : Nat)
  | missingArrow (offset : Nat)
  | trailingComma (offset : Nat)
  | unexpectedToken (offset : Nat)
  deriving DecidableEq, Repr

/-- Whitespace tolerated around pairs and separators. -/
def isWs (c : Char) : Bool :=
  c = ' ' ∨ c = '\t' ∨ c = '\n' ∨ c = '\r'

/-- Modelled from the spec: skip whitespace, tracking the offset. -/
def skipWs : List Char → Nat → List Char × Nat
  | [], p => ([], p)
  | c :: rest, p => if isWs c then skipWs rest (p + 1) else (c :: rest, p)

/-- Modelled from the spec: the body of a quoted segment, after its opening
`"`.  Returns the unescaped content, the rest of the input after the
closing `"`, and the offset there.  `\"` decodes to `"`, `\\` to `\`; an
unescaped `\` before anything else is a dangling escape (strict policy);
running out of input is an unterminated string. -/
def parseQuotedBody : List Char → Nat → Except ParseErr (List Char × List Char × Nat)
  | [], p => .error (.unterminatedString p)
  | c :: rest, p =>
    if c = '"' then .ok ([], rest, p + 1)
    else if c = '\\' then
      match rest with
      | [] => .error (.danglingEscape p)
      | d :: rest2 =>
        if d = '"' ∨ d = '\\' then
          match parseQuotedBody rest2 (p + 2) with
          | .error e => .error e
          | .ok (s, r, q) => .ok (d :: s, r, q)
        else .error (.danglingEscape p)
    else
      match parseQuotedBody rest (p + 1) with
      | .error e => .error e
      | .ok (s, r, q) => .ok (c :: s, r, q)

/-- Modelled from the spec: one pair — a quoted key, `=>` (with surrounding
whitespace tolerated), then a quoted value or the bare literal `NULL`.
Returns the pair, the rest of the input and the offset there. -/
def parsePair (s : List Char) (p : Nat) :
    Except ParseErr ((List Char × Option (List Char)) × List Char × Nat) :=
  match s with
  | '"' :: rest =>
    match parseQuotedBody rest (p + 1) with
    | .error e => .error e
    | .ok (k, r1, p1) =>
      let (r2, p2) := skipWs r1 p1
      match r2 with
      | '=' :: '>' :: r3 =>
        let (r4, p4) := skipWs r3 (p2 + 2)
        match r4 with
        | '"' :: r5 =>
          match parseQuotedBody r5 (p4 + 1) with
          | .error e => .error e
          | .ok (v, r6, p6) => .ok ((k, some v), r6, p6)
        | 'N' :: 'U' :: 'L' :: 'L' :: r5 => .ok ((k, Option.none), r5, p4 + 4)
        | _ => .error (.unexpectedToken p4)
      | _ => .error (.missingArrow p2)
  | _ => .error (.unexpectedToken p)

/-- Modelled from the spec: the pair list — pairs separated by `,` with
whitespace tolerated, a trailing comma being a syntax error.  `fuel` only
bounds the recursion; `decode` supplies more fuel than there can be
pairs. -/
def decodeLoop : Nat → List Char → Nat →
    Except ParseErr (List (List Char × Option (List Char)))
  | 0, _, p => .error (.unexpectedToken p)
  | fuel + 1, s, p =>
    match parsePair s p with
    | .error e => .error e
    | .ok (pr, r, q) =>
      let (r1, q1) := skipWs r q
      match r1 with
      | [] => .ok [pr]
      | ',' :: r2 =>
        let (r3, q3) := skipWs r2 (q1 + 1)
        match r3 with
        | [] => .error (.trailingComma q3)
        | _ =>
          match decodeLoop fuel r3 q3 with
          | .error e => .error e
          | .ok prs => .ok (pr :: prs)
      | _ => .error (.unexpectedToken q1)

/-- Modelled from the spec: `decode(text)` — parse hstore text into the
ordered pair sequence, null values decoding to `Option.none`.  Empty (or
all-whitespace) input decodes to the empty sequence. -/
def decode (s : List Char) : Except ParseErr (List (List Char × Option (List Char))) :=
  let (r, p) := skipWs s 0
  match r with
  | [] => .ok []
  | _ => decodeLoop (s.length + 1) r p

/-- The rendered text of one pair with already-escaped-free key and value:
`"k"=>"v"`. -/
def pairText (k v : List Char) : List Char :=
  '"' :: (k ++ arrowChunk ++ v ++ ['"'])

/-- The rendered text of the pairs after the first: each preceded by a
comma. -/
def hstoreTextRest : List (List Char × List Char) → List Char
  | [] => []
  | (k, v) :: rest => ',' :: (pairText k v ++ hstoreTextRest rest)

/-- The full rendered text of a pair list: pairs joined by single commas,
no trailing separator. -/
def hstoreText : List (List Char × List Char) → List Char
  | [] => []
  | (k, v) :: rest => pairText k v ++ hstoreTextRest rest

/-! ## Helper lemmas -/

deriving instance DecidableEq for Except

lemma foldl_bufWrite (ws : List (List Char)) (acc : List Char) :
    ws.foldl bufWrite acc = acc ++ ws.flatten := by
  induction ws generalizing acc with
  | nil => simp
  | cons w ws ih => simp [bufWrite, ih, List.append_assoc]

/-- The `StringIO` buffer after `dump` finishes is the concatenation of the
chunks it wrote. -/
lemma getvalue_eq_join (ws : List (List Char)) : getvalue ws = ws.flatten := by
  simp [getvalue, foldl_bufWrite]

lemma length_le_hstoreTextRest (m : List (List Char × List Char)) :
    m.length ≤ (hstoreTextRest m).length := by
  induction m with
  | nil => simp [hstoreTextRest]
  | cons q m ih =>
    obtain ⟨k, v⟩ := q
    simp [hstoreTextRest, pairText]
    omega

lemma length_le_hstoreText (m : List (List Char × List Char)) :
    m.length ≤ (hstoreText m).length := by
  cases m with
  | nil => simp [hstoreText]
  | cons q m =>
    obtain ⟨k, v⟩ := q
    have := length_le_hstoreTextRest m
    simp [hstoreText, pairText]
    omega

/-- On escape-free pairs the write loop raises nothing and its writes
concatenate to the rendered text (with a leading comma for a non-first
chunk). -/
lemma dumpLoop_escape_free (km : PyVal → Except PyErr (List Char)) (vm : Hook)
    (enc : List Char → List Char) :
    ∀ (m : List (List Char × List Char)) (first : Bool),
    (∀ q ∈ m, hasEscChar q.1 = false ∧ hasEscChar q.2 = false) →
    (dumpLoop km vm enc first (m.map fun q => (.pstr q.1, .pstr q.2))).error
        = Option.none ∧
    (dumpLoop km vm enc first (m.map fun q => (.pstr q.1, .pstr q.2))).written.flatten
        = (bif first then hstoreText m else hstoreTextRest m) := by
  intro m
  induction m with
  | nil =>
    intro first h
    cases first <;> simp [dumpLoop, hstoreText, hstoreTextRest]
  | cons q m ih =>
    intro first h
    obtain ⟨k, v⟩ := q
    have hk : hasEscChar k = false := (h (k, v) (List.mem_cons_self _ _)).1
    have hv : hasEscChar v = false := (h (k, v) (List.mem_cons_self _ _)).2
    obtain ⟨ihe, ihw⟩ := ih false (fun r hr => h r (List.mem_cons_of_mem _ hr))
    constructor
    · simp [dumpLoop, resolveKey, resolveValue, escSub, hk, hv, ihe]
    · cases first <;>
        simp [dumpLoop, resolveKey, resolveValue, escSub, hk, hv, ihw,
          hstoreText, hstoreTextRest, pairText, arrowChunk, List.append_assoc]

/-- On escape-free all-`str` pairs, `dump` succeeds and its writes
concatenate to the rendered hstore text. -/
lemma dump_escape_free (m : List (List Char × List Char)) (enc : List Char → List Char)
    (h : ∀ q ∈ m, hasEscChar q.1 = false ∧ hasEscChar q.2 = false) :
    (dump (pairList (m.map fun q => (.pstr q.1, .pstr q.2))) true .none .none enc).error
        = Option.none ∧
    (dump (pairList (m.map fun q => (.pstr q.1, .pstr q.2)))
        true .none .none enc).written.flatten = hstoreText m := by
  obtain ⟨he, hw⟩ :=
    dumpLoop_escape_free (fun k => .error (.keyNotStr k)) .none enc m true h
  exact ⟨he, hw⟩

lemma skipWs_not_ws (c : Char) (rest : List Char) (p : Nat) (h : isWs c = false) :
    skipWs (c :: rest) p = (c :: rest, p) := by
  simp [skipWs, h]

/-- Parsing a quoted body over escape-free content consumes exactly the
content and its closing quote. -/
lemma parseQuotedBody_append :
    ∀ (s : List Char), hasEscChar s = false →
    ∀ (t : List Char) (p : Nat),
    parseQuotedBody (s ++ '"' :: t) p = .ok (s, t, p + s.length + 1) := by
  intro s
  induction s with
  | nil =>
    intro h t p
    rw [parseQuotedBody.eq_def]
    simp
  | cons c s ih =>
    intro h t p
    have hc : c ≠ '"' ∧ c ≠ '\\' ∧ hasEscChar s = false := by
      simp [hasEscChar] at h ⊢
      tauto
    obtain ⟨hc1, hc2, hs⟩ := hc
    rw [List.cons_append, parseQuotedBody.eq_def]
    simp [hc1, hc2, ih hs]
    omega

lemma skipWs_nil (p : Nat) : skipWs [] p = ([], p) := rfl

/-- Parsing one rendered escape-free pair consumes exactly its text. -/
lemma parsePair_render (k v t : List Char) (p : Nat)
    (hk : hasEscChar k = false) (hv : hasEscChar v = false) :
    parsePair (pairText k v ++ t) p
      = .ok ((k, some v), t, p + 1 + k.length + 1 + 2 + 1 + v.length + 1) := by
  have h1 := parseQuotedBody_append k hk ('=' :: '>' :: '"' :: (v ++ '"' :: t)) (p + 1)
  have h2 := parseQuotedBody_append v hv t (p + 1 + k.length + 1 + 2 + 1)
  simp only [pairText, arrowChunk, List.cons_append, List.append_assoc, List.nil_append]
  simp [parsePair, h1, h2, skipWs_not_ws, isWs]

/-- The spec-modelled reader recovers an escape-free rendered pair
list. -/
lemma decodeLoop_render :
    ∀ (m : List (List Char × List Char)), m ≠ [] →
    (∀ q ∈ m, hasEscChar q.1 = false ∧ hasEscChar q.2 = false) →
    ∀ (fuel p : Nat), m.length ≤ fuel →
    decodeLoop fuel (hstoreText m) p = .ok (m.map fun q => (q.1, some q.2)) := by
  intro m
  induction m with
  | nil => intro hne; exact absurd rfl hne
  | cons q m ih =>
    intro _ h fuel p hlen
    obtain ⟨k, v⟩ := q
    have hk := (h (k, v) (List.mem_cons_self _ _)).1
    have hv := (h (k, v) (List.mem_cons_self _ _)).2
    have hm := fun r hr => h r (List.mem_cons_of_mem _ hr)
    cases fuel with
    | zero => simp at hlen
    | succ f =>
      cases m with
      | nil =>
        have hp := parsePair_render k v [] p hk hv
        rw [List.append_nil] at hp
        rw [decodeLoop.eq_def]
        simp [hstoreText, hstoreTextRest, hp, skipWs_nil]
      | cons q2 m2 =>
        obtain ⟨k2, v2⟩ := q2
        have hp := parsePair_render k v (hstoreTextRest ((k2, v2) :: m2)) p hk hv
        have hlen2 : ((k2, v2) :: m2).length ≤ f := by
          simp at hlen ⊢
          omega
        have hne2 : ((k2, v2) :: m2) ≠ [] := by simp
        have hrec : ∀ p', decodeLoop f (hstoreText ((k2, v2) :: m2)) p'
            = .ok (((k2, v2) :: m2).map fun r => (r.1, some r.2)) :=
          fun p' => ih hne2 hm f p' hlen2
        simp only [hstoreText, hstoreTextRest, pairText, arrowChunk,
          List.cons_append, List.append_assoc, List.nil_append] at hp hrec ⊢
        rw [decodeLoop.eq_def]
        simp [hp, hrec, skipWs_not_ws, isWs]

/-- On escape-free text pairs the codec round-trips: the buffered encoder
output is the rendered hstore text, and the spec-modelled reader decodes
it back to the same ordered pairs. -/
theorem escape_free_round_trip (m : List (List Char × List Char))
    (h : ∀ q ∈ m, hasEscChar q.1 = false ∧ hasEscChar q.2 = false) :
    dumps (pairList (m.map fun q => (.pstr q.1, .pstr q.2))) .none .none id id false
      = .ok (hstoreText m) ∧
    decode (hstoreText m) = .ok (m.map fun q => (q.1, some q.2)) := by
  obtain ⟨he, hw⟩ := dump_escape_free m id h
  constructor
  · simp [dumps, he, getvalue_eq_join, hw]
  · cases m with
    | nil => simp [hstoreText, decode, skipWs_nil]
    | cons q m2 =>
      obtain ⟨k, v⟩ := q
      have hne : ((k, v) :: m2) ≠ ([] : List (List Char × List Char)) := by simp
      have hlen : ((k, v) :: m2).length ≤ (hstoreText ((k, v) :: m2)).length + 1 := by
        have := length_le_hstoreText ((k, v) :: m2)
        omega
      have hd := decodeLoop_render ((k, v) :: m2) hne h
        ((hstoreText ((k, v) :: m2)).length + 1) 0 hlen
      have hcons : hstoreText ((k, v) :: m2)
          = '"' :: (k ++ arrowChunk ++ v ++ ['"'] ++ hstoreTextRest m2) := by
        simp [hstoreText, pairText, List.cons_append, List.append_assoc]
      rw [hcons] at hd ⊢
      rw [decode.eq_def]
      simp only [skipWs_not_ws _ _ _ (by simp [isWs] : isWs '"' = false)]
      simpa using hd

/-! ## Claims -/

/-- Claim C1, counterexample.  The claim states that a null value renders as
the unquoted literal `NULL` and never causes a `TypeError`; in fact
`dump` has no null-value case at all: `encode([("a", None)])` raises
`TypeError("value None of key 'a' is not a string")` and writes nothing,
and `dumps` does not return `"a"=>NULL`. -/
theorem none_value_not_rendered_null_cex :
    dump (pairList [(.pstr "a".data, .pnone)]) true .none .none id
      = ⟨[], some (.valueNotStr .pnone "a".data)⟩ ∧
    dumps (pairList [(.pstr "a".data, .pnone)]) .none .none id id false
      ≠ .ok "\"a\"=>NULL".data := by
  constructor
  · rfl
  · decide

/-- Claim C1, amended.  A null value is treated like any other non-text
value: with no `value_map` supplied, `encode([(k, None)])` fails with the
`TypeError` identifying the key, and when a callable `value_map` is
supplied the null IS passed to it (its result or exception deciding the
outcome), contrary to the claim that null is never passed to the hook. -/
theorem none_value_treated_as_non_text :
    ∀ (ks : List Char) (f : PyVal → Except PyErr (List Char))
      (enc : List Char → List Char),
    dump (pairList [(.pstr ks, .pnone)]) true .none .none enc
      = ⟨[], some (.valueNotStr .pnone ks)⟩ ∧
    resolveValue (.callable f) enc ks .pnone = f .pnone := by
  intro ks f enc
  exact ⟨rfl, rfl⟩

/-- Claim C2 (code bug).  The round-trip `decode(encode(m)) == list(m)`
fails on the source: for `m = [("a\"b", "c\\d")]` (the spec's own escaping
example) `encode` raises `sre_constants.error("invalid group reference")`
— the substitution template `\\\1` references group 1 but `escape_re` has
no groups — so no text is produced at all.  On special-free text the round
trip does hold, as the last two conjuncts show at `[("a", "1")]`. -/
theorem round_trip_blocked_by_escape_error :
    dumps (pairList [(.pstr "a\"b".data, .pstr "c\\d".data)]) .none .none id id false
      = .error .reInvalidGroupReference ∧
    dump (pairList [(.pstr "a\"b".data, .pstr "c\\d".data)]) true .none .none id
      = ⟨[['"']], some .reInvalidGroupReference⟩ ∧
    dumps (pairList [(.pstr "a".data, .pstr "1".data)]) .none .none id id false
      = .ok "\"a\"=>\"1\"".data ∧
    decode "\"a\"=>\"1\"".data = .ok [("a".data, some "1".data)] := by
  refine ⟨by decide, by decide, by decide, by decide⟩

/-- Claim C3 (code bug).  The claim states every `"` and `\` in a resolved
key or value is escaped by prefixing a backslash.  In fact the substitution
`escape_re.sub(r"\\\1", s)` references group 1 of a group-less pattern, so
under Python 2 `sre` semantics any string containing `"` or `\` raises
`sre_constants.error("invalid group reference")` instead of being escaped;
strings free of those characters pass through unchanged (nothing is ever
escaped). -/
theorem escape_raises_on_quote_or_backslash :
    escSub "a\"b".data = .error .reInvalidGroupReference ∧
    escSub "c\\d".data = .error .reInvalidGroupReference ∧
    escSub "plain".data = .ok "plain".data ∧
    dump (pairList [(.pstr "a\"b".data, .pstr "v".data)]) true .none .none id
      = ⟨[['"']], some .reInvalidGroupReference⟩ ∧
    dump (pairList [(.pstr "k".data, .pstr "c\\d".data)]) true .none .none id
      = ⟨[['"'], ['k'], arrowChunk], some .reInvalidGroupReference⟩ := by
  refine ⟨by decide, by decide, by decide, by decide, by decide⟩

/-- Claim C4 (code bug).  On pairs free of `"` and `\` the encoder does
emit the pairs in source order, comma-separated with no trailing separator
(first conjunct, the claim's own example).  But the claim's universal
statement fails: a value containing `"` aborts mid-pair with
`sre_constants.error`, leaving the partial output `"x"=>"1","y"=>` followed
by nothing, instead of the claimed complete rendering. -/
theorem pair_order_and_separators_eval :
    dumps (pairList [(.pstr "x".data, .pstr "1".data), (.pstr "y".data, .pstr "2".data)])
        .none .none id id false
      = .ok "\"x\"=>\"1\",\"y\"=>\"2\"".data ∧
    dump (pairList [(.pstr "x".data, .pstr "1".data), (.pstr "y".data, .pstr "\"2".data)])
        true .none .none id
      = ⟨[['"'], ['x'], arrowChunk, ['1'], ['"'], [',', '"'], ['y'], arrowChunk],
         some .reInvalidGroupReference⟩ := by
  refine ⟨by decide, by decide⟩

/-- Claim C5 (code bug).  The `value_map` callability check sits in an
`elif` chain behind `key_map`: when `key_map` is `None` (the default) a
non-callable `value_map` is NOT rejected — encoding all-text pairs succeeds
(first conjunct), and a non-text value only fails later, when the
non-callable object is called (second conjunct, a different `TypeError` at
pair-processing time).  The configured check fires only when `key_map` was
supplied and callable (third conjunct). -/
theorem value_map_check_dead_without_key_map :
    dump (pairList [(.pstr "a".data, .pstr "b".data)]) true .none (.notCallable "int".data) id
      = ⟨[['"'], ['a'], arrowChunk, ['b'], ['"']], Option.none⟩ ∧
    dump (pairList [(.pstr "a".data, .pint 1)]) true .none (.notCallable "int".data) id
      = ⟨[], some (.notCallableCalled "int".data)⟩ ∧
    (∀ (f : PyVal → Except PyErr (List Char)) (t : List Char)
       (ps : List (PyVal × PyVal)) (enc : List Char → List Char),
      dump (pairList ps) true (.callable f) (.notCallable t) enc
        = ⟨[], some .valueMapNotCallable⟩) := by
  refine ⟨by decide, by decide, ?_⟩
  intro f t ps enc
  rfl

lemma setupKeyMap_none (vm : Hook) :
    setupKeyMap .none vm = .ok (fun k => .error (.keyNotStr k)) := rfl

lemma setupKeyMap_callable_none (f : PyVal → Except PyErr (List Char)) :
    setupKeyMap (.callable f) .none = .ok f := rfl

/-- Claim C6.  A non-text key with no `key_map` fails with the `TypeError`
naming the key; a non-text value with no `value_map` fails with the
`TypeError` identifying the (resolved) key; and `value_map=str` coerces
`encode([("a", 1)])` to `"a"=>"1"`. -/
theorem non_text_key_value_errors_and_str_coercion :
    ∀ (k v w : PyVal) (ks : List Char) (vm : Hook) (enc : List Char → List Char),
    (k.isBasestring = false →
      dump (pairList [(k, v)]) true .none vm enc = ⟨[], some (.keyNotStr k)⟩) ∧
    (w.isBasestring = false →
      dump (pairList [(.pstr ks, w)]) true .none .none enc
        = ⟨[], some (.valueNotStr w ks)⟩) ∧
    dumps (pairList [(.pstr "a".data, .pint 1)]) .none strHook id id false
      = .ok "\"a\"=>\"1\"".data := by
  intro k v w ks vm enc
  refine ⟨?_, ?_, by decide⟩
  · intro hk
    cases k with
    | pstr s => simp [PyVal.isBasestring] at hk
    | puni s => simp [PyVal.isBasestring] at hk
    | pnone => rfl
    | pint n => rfl
    | pobj t => rfl
  · intro hw
    cases w with
    | pstr s => simp [PyVal.isBasestring] at hw
    | puni s => simp [PyVal.isBasestring] at hw
    | pnone => rfl
    | pint n => rfl
    | pobj t => rfl

/-- Claim C6, witness: both error branches at concrete inputs. -/
theorem non_text_key_value_errors_and_str_coercion_witness :
    (PyVal.isBasestring (.pint 7) = false ∧
      dump (pairList [(.pint 7, .pstr "z".data)]) true .none .none id
        = ⟨[], some (.keyNotStr (.pint 7))⟩) ∧
    (PyVal.isBasestring .pnone = false ∧
      dump (pairList [(.pstr "b".data, .pnone)]) true .none .none id
        = ⟨[], some (.valueNotStr .pnone "b".data)⟩) :=
  ⟨⟨by decide, (non_text_key_value_errors_and_str_coercion (.pint 7) (.pstr "z".data)
      .pnone "b".data .none id).1 (by decide)⟩,
   ⟨by decide, (non_text_key_value_errors_and_str_coercion (.pint 7) (.pstr "z".data)
      .pnone "b".data .none id).2.1 (by decide)⟩⟩

/-- Claim C7.  The pair iterator is obtained in the fixed preference order
`iteritems()`, then `items()`, then `__iter__`; a source exposing none of
the three shapes makes `dump` fail with the `TypeError` carrying the type
name, with nothing written to the sink. -/
theorem iterator_preference_order :
    ∀ (o : Source) (km vm : Hook) (enc : List Char → List Char)
      (ps : List (PyVal × PyVal)),
    (o.iteritems = some ps → getItems o = .ok ps) ∧
    (o.iteritems = Option.none → o.items = some ps → getItems o = .ok ps) ∧
    (o.iteritems = Option.none → o.items = Option.none → o.iterable = some ps →
      getItems o = .ok ps) ∧
    (o.iteritems = Option.none → o.items = Option.none → o.iterable = Option.none →
      dump o true km vm enc = ⟨[], some (.notMapping o.typeName)⟩) := by
  intro o km vm enc ps
  refine ⟨?_, ?_, ?_, ?_⟩
  · intro h1
    simp [getItems, h1]
  · intro h1 h2
    simp [getItems, h1, h2]
  · intro h1 h2 h3
    simp [getItems, h1, h2, h3]
  · intro h1 h2 h3
    simp [dump, getItems, h1, h2, h3]

/-- Claim C7, witness: a dict-shaped source takes the `iteritems()` pairs,
and a shapeless source fails writing nothing. -/
theorem iterator_preference_order_witness :
    ((dictSource [(.pstr "a".data, .pstr "1".data)]).iteritems
        = some [(.pstr "a".data, .pstr "1".data)] ∧
      getItems (dictSource [(.pstr "a".data, .pstr "1".data)])
        = .ok [(.pstr "a".data, .pstr "1".data)]) ∧
    ((⟨Option.none, Option.none, Option.none, "int".data⟩ : Source).iteritems
        = Option.none ∧
      dump ⟨Option.none, Option.none, Option.none, "int".data⟩ true .none .none id
        = ⟨[], some (.notMapping "int".data)⟩) :=
  ⟨⟨rfl, (iterator_preference_order (dictSource [(.pstr "a".data, .pstr "1".data)])
      .none .none id [(.pstr "a".data, .pstr "1".data)]).1 rfl⟩,
   ⟨rfl, (iterator_preference_order ⟨Option.none, Option.none, Option.none, "int".data⟩
      .none .none id []).2.2.2 rfl rfl rfl⟩⟩

/-- Claim C8.  An empty source — whatever its shape, and under any hook
configuration that passes the setup checks — succeeds, writes nothing, and
`dumps` returns the empty string. -/
theorem empty_source_empty_output :
    ∀ (o : Source) (km vm : Hook) (enc dec : List Char → List Char)
      (kmf : PyVal → Except PyErr (List Char)),
    getItems o = .ok [] → setupKeyMap km vm = .ok kmf →
    dump o true km vm enc = ⟨[], Option.none⟩ ∧
    dumps o km vm enc dec false = .ok [] := by
  intro o km vm enc dec kmf h1 h2
  have hd : dump o true km vm enc = ⟨[], Option.none⟩ := by
    simp [dump, h1, h2, dumpLoop]
  exact ⟨hd, by simp [dumps, hd, getvalue]⟩

/-- Claim C8, witness: the empty pair list with no hooks. -/
theorem empty_source_empty_output_witness :
    getItems (pairList []) = .ok [] ∧
    setupKeyMap .none .none = .ok (fun k => .error (.keyNotStr k)) ∧
    dumps (pairList []) .none .none id id false = .ok [] :=
  ⟨rfl, rfl,
   (empty_source_empty_output (pairList []) .none .none id id
      (fun k => .error (.keyNotStr k)) rfl rfl).2⟩

/-- Claim C9.  An exception raised inside a supplied `key_map` or
`value_map` hook propagates out of `dump` unchanged — the resulting error
is exactly the hook's own, whatever it is, with nothing written. -/
theorem hook_error_propagates_unchanged :
    ∀ (f : PyVal → Except PyErr (List Char)) (e : PyErr) (k v w : PyVal)
      (ks : List Char) (enc : List Char → List Char),
    (k.isBasestring = false → f k = .error e →
      dump (pairList [(k, v)]) true (.callable f) .none enc = ⟨[], some e⟩) ∧
    (w.isBasestring = false → f w = .error e →
      dump (pairList [(.pstr ks, w)]) true .none (.callable f) enc
        = ⟨[], some e⟩) := by
  intro f e k v w ks enc
  constructor
  · intro hk hf
    have hr : resolveKey f enc k = f k := by
      cases k with
      | pstr s => simp [PyVal.isBasestring] at hk
      | puni s => simp [PyVal.isBasestring] at hk
      | pnone => rfl
      | pint n => rfl
      | pobj t => rfl
    simp [dump, getItems, pairList, setupKeyMap_callable_none, dumpLoop, hr, hf]
  · intro hw hf
    have hr : resolveValue (.callable f) enc ks w = f w := by
      cases w with
      | pstr s => simp [PyVal.isBasestring] at hw
      | puni s => simp [PyVal.isBasestring] at hw
      | pnone => rfl
      | pint n => rfl
      | pobj t => rfl
    simp [dump, getItems, pairList, setupKeyMap_none, dumpLoop, resolveKey, hr, hf]

/-- Claim C9, witness: a key hook raising a bespoke error at a non-text
key, the error surfacing untouched. -/
theorem hook_error_propagates_unchanged_witness :
    (PyVal.isBasestring (.pint 3) = false ∧
      (fun _ : PyVal => (.error (.hookErr 42) : Except PyErr (List Char))) (.pint 3)
        = .error (.hookErr 42) ∧
      dump (pairList [(.pint 3, .pstr "v".data)]) true
          (.callable (fun _ => .error (.hookErr 42))) .none id
        = ⟨[], some (.hookErr 42)⟩) :=
  ⟨by decide, rfl,
   (hook_error_propagates_unchanged (fun _ => .error (.hookErr 42)) (.hookErr 42)
      (.pint 3) (.pstr "v".data) .pnone [] id).1 (by decide) rfl⟩

/-- Claim C10.  `dumps` is the buffered form of `dump`: when `dump` raises
no exception, `dumps` returns exactly the concatenation of the chunks
`dump` writes — decoded with the given encoding when `return_unicode` is
set — and when `dump` raises, `dumps` propagates the same exception. -/
theorem dumps_is_buffered_dump :
    ∀ (o : Source) (km vm : Hook) (enc dec : List Char → List Char),
    ((dump o true km vm enc).error = Option.none →
      dumps o km vm enc dec false = .ok ((dump o true km vm enc).written.flatten) ∧
      dumps o km vm enc dec true
        = .ok (dec ((dump o true km vm enc).written.flatten))) ∧
    (∀ e : PyErr, (dump o true km vm enc).error = some e →
      dumps o km vm enc dec false = .error e ∧
      dumps o km vm enc dec true = .error e) := by
  intro o km vm enc dec
  constructor
  · intro h
    constructor <;> simp [dumps, h, getvalue_eq_join]
  · intro e h
    constructor <;> simp [dumps, h]

/-- Claim C10, witness: a one-pair source, where the buffered result is the
flattened write sequence. -/
theorem dumps_is_buffered_dump_witness :
    (dump (pairList [(.pstr "k".data, .pstr "v".data)]) true .none .none id).error
        = Option.none ∧
    dumps (pairList [(.pstr "k".data, .pstr "v".data)]) .none .none id id false
      = .ok ((dump (pairList [(.pstr "k".data, .pstr "v".data)])
              true .none .none id).written.flatten) :=
  ⟨by decide,
   ((dumps_is_buffered_dump (pairList [(.pstr "k".data, .pstr "v".data)])
      .none .none id id).1 (by decide)).1⟩
